import Mathlib

/-!
# Verification of the SVG2Gcode / SVGcut CAM core against its specification

Shallow embedding of the CAM-related source files:

* `src/unnamed/part_003` (second document): the `Cam` module — `mergePaths`,
  `pocket`, `outline`, `engrave`, `separateTabs`;
* `src/js/SelectionViewModel.js` (second document): the older
  `GcodeGenerationViewModel.generateGcode`, which builds the G-code line list
  directly (embedded in namespace `SVM`);
* `src/src/GcodeGenerationViewModel.js`: the newer
  `GcodeGenerationViewModel.generateGcode`, which builds job/operation cards
  and delegates emission to the (absent) `Gcode.js` module (namespace `GGVM`).

The polygon-algebra module `InternalPaths.js` (offset, clip, crosses,
mergePaths) is not part of the sources; where a claim depends on it, the
function is either taken as an abstract parameter or modelled from the spec
(the definitions say which).

Numbers are modelled as `ℚ` (JavaScript numbers used here hold integer
"internal units" and exact decimal fractions; no claim depends on
floating-point rounding).  Mutation in the JavaScript is modelled by explicit
state threading; aliasing effects are modelled where they are observable
(see `Cam.pocket`).
-/

set_option autoImplicit false

/-- A 2-D point, JavaScript `{X, Y}` as used by ClipperLib-style paths. -/
structure Pt where
  X : ℚ
  Y : ℚ
deriving DecidableEq, Repr, Inhabited

/-- Default point used where JavaScript would read an element of an empty
array (`path[0]` on `[]` yields `undefined`; no claim exercises that case). -/
def origin : Pt := ⟨0, 0⟩

/-- `InternalPath`: an ordered sequence of points. -/
abbrev IPath := List Pt

/-- `InternalPath[]`: a polygon soup. -/
abbrev IPaths := List IPath

/-- Squared Euclidean distance.  JavaScript sorts intersections by
`distanceTo` (Euclidean); comparing squared distances orders identically. -/
def distSq (a b : Pt) : ℚ := (a.X - b.X) ^ 2 + (a.Y - b.Y) ^ 2

/-- `CamPath` record from `Cam.js`: a tool path plus the `safeToClose` flag. -/
structure CamPath where
  path : IPath
  safeToClose : Bool
deriving DecidableEq, Repr

/-- JavaScript runtime errors that the embedded code can raise. -/
inductive JsError where
  | referenceError
deriving DecidableEq, Repr

/-- Modelled from the spec: `InternalPaths.mergePaths` (the `InternalPaths.js`
module is absent from the sources).  Spec §4.1: "takes a list of closed paths
… consecutive input paths that share an endpoint inside `clip` have been
concatenated into a single longer path. Greedy merge: each output path starts
with an unmerged input; subsequent inputs are appended if an endpoint lies
within `cutterDiameter/1000` of the open end AND the connecting segment does
not cross `clip`. Order within the input list is preserved for un-mergeable
inputs."  `mergeDistSq` is the square of the `cutterDiameter/1000` threshold.
With no clip polygon (`Cam.engrave` passes JavaScript `null`) no endpoint lies
inside the clip, so nothing merges and the input list is returned unchanged. -/
def ipMergePaths (crosses : Option IPaths → Pt → Pt → Bool) (mergeDistSq : ℚ)
    (clip : Option IPaths) (paths : List IPath) : List IPath :=
  match clip with
  | none => paths
  | some c =>
    let step := fun (acc : List IPath × Option IPath) (p : IPath) =>
      match acc with
      | (done, none) => (done, some p)
      | (done, some cur) =>
        let e := cur.getLastD origin
        if distSq e (p.headD origin) ≤ mergeDistSq
            && !crosses (some c) e (p.headD origin) then
          (done, some (cur ++ p))
        else if distSq e (p.getLastD origin) ≤ mergeDistSq
            && !crosses (some c) e (p.getLastD origin) then
          (done, some (cur ++ p.reverse))
        else
          (done ++ [cur], some p)
    match paths.foldl step ([], none) with
    | (done, none) => done
    | (done, some cur) => done ++ [cur]

namespace Cam

/-- `Cam.mergePaths` (`part_003` lines 385–394): runs
`InternalPaths.mergePaths` and wraps each resulting path as a `CamPath`,
where closing is safe iff the closing segment does not cross the clip
polygon.  `ipMerge` and `crosses` stand for the absent `InternalPaths`
functions; `none` models the JavaScript `null` clip. -/
def mergePaths (ipMerge : Option IPaths → List IPath → List IPath)
    (crosses : Option IPaths → Pt → Pt → Bool)
    (clipPoly : Option IPaths) (paths : List IPath) : List CamPath :=
  (ipMerge clipPoly paths).map fun path =>
    { path := path
      safeToClose := !crosses clipPoly (path.headD origin) (path.getLastD origin) }

/-- One update of the `pocket` while-loop's `current` variable
(`part_003` line 416, together with the in-place reversal at 412–414):
the (possibly reversed) current polygon set is shrunk by `stepDelta`. -/
def pocketStep (offset : IPaths → ℚ → IPaths) (stepDelta : ℚ) (climb : Bool)
    (current : IPaths) : IPaths :=
  offset (if climb then current.map List.reverse else current) stepDelta

/-- The `pocket` while-loop (`part_003` lines 411–417).  `fuel` bounds the
number of iterations (the JavaScript loop is unbounded; see the termination
theorem for claim C10).  Each iteration reverses every path in place when
`climb`, prepends the current set to `allPaths`, and shrinks `current`. -/
def pocketLoop (offset : IPaths → ℚ → IPaths) (stepDelta : ℚ) (climb : Bool) :
    ℕ → IPaths → List IPath → List IPath
  | 0, _, allPaths => allPaths
  | fuel + 1, current, allPaths =>
    if current = [] then allPaths
    else
      let current := if climb then current.map List.reverse else current
      pocketLoop offset stepDelta climb fuel (offset current stepDelta)
        (current ++ allPaths)

/-- `Cam.pocket` (`part_003` lines 404–419).  `clipPoly = current.slice(0)` is
a shallow copy: its elements are the same arrays as those of the initial
`current`, so the in-place reversal performed on the first loop iteration when
`climb` is set also reverses the paths of `clipPoly`; that aliasing is modelled
by the conditional below. -/
def pocket (offset : IPaths → ℚ → IPaths)
    (ipMerge : Option IPaths → List IPath → List IPath)
    (crosses : Option IPaths → Pt → Pt → Bool) (fuel : ℕ)
    (geometry : IPaths) (cutterDia overlap : ℚ) (climb : Bool) : List CamPath :=
  let current := offset geometry (-cutterDia / 2)
  let clipPoly :=
    if climb && !current.isEmpty then current.map List.reverse else current
  mergePaths ipMerge crosses (some clipPoly)
    (pocketLoop offset (-cutterDia * (1 - overlap)) climb fuel current [])

/-- `Cam.engrave` (`part_003` lines 486–499): copies each input path,
reverses the copy when `climb` is false, appends the copy's first point to
close it, merges with a `null` clip polygon, and finally forces
`safeToClose := true` on every result. -/
def engrave (ipMerge : Option IPaths → List IPath → List IPath)
    (crosses : Option IPaths → Pt → Pt → Bool)
    (geometry : IPaths) (climb : Bool) : List CamPath :=
  let allPaths := geometry.map fun path =>
    let copy := if !climb then path.reverse else path
    copy ++ [copy.headD origin]
  (mergePaths ipMerge crosses none allPaths).map
    fun cp => { cp with safeToClose := true }

/-- Insertion of a point into a list sorted by the given key
(used to model `Array.prototype.sort` on intersection points). -/
def insertByKey (key : Pt → ℚ) (x : Pt) : List Pt → List Pt
  | [] => [x]
  | y :: ys => if key x ≤ key y then x :: y :: ys else y :: insertByKey key x ys

/-- `intersections.sort((a, b) => a.distanceTo(p0)[0] - b.distanceTo(p0)[0])`
(`part_003` line 564): sort by ascending distance from `p0`. -/
def sortByDistFrom (p0 : Pt) (l : List Pt) : List Pt :=
  l.foldr (insertByKey (distSq p0)) []

/-- State of the `separateTabs` main loop: the previous vertex `ip0`, the
sub-path under construction `currPath`, and the finished sub-paths `paths`. -/
structure TabSplit where
  ip0 : Pt
  currPath : IPath
  paths : List IPath
deriving DecidableEq, Repr

/-- Body of the `for (const ip1 of toolPath)` loop of `separateTabs`
(`part_003` lines 554–583).  Note the faithful oddity of the source: the
`currPath.push(ip1)` calls sit inside the `for (const tabPoly of tabPolys)`
loop, so `ip1` is appended once per tab polygon, and not at all when
`tabPolys` is empty. -/
def tabSegStep (intersect : Pt → Pt → IPath → List Pt) (tabPolys : List IPath)
    (st : TabSplit) (ip1 : Pt) : TabSplit :=
  if ip1 ≠ st.ip0 then
    let s := tabPolys.foldl
      (fun (s : IPath × List IPath) tabPoly =>
        let intersections := intersect st.ip0 ip1 tabPoly
        if intersections ≠ [] then
          let sorted := sortByDistFrom st.ip0 intersections
          let s := sorted.foldl
            (fun (s : IPath × List IPath) ins =>
              (([ins] : IPath), s.2 ++ [s.1 ++ [ins]]))
            s
          (s.1 ++ [ip1], s.2)
        else
          (s.1 ++ [ip1], s.2))
      (st.currPath, st.paths)
    { ip0 := ip1, currPath := s.1, paths := s.2 }
  else
    st

/-- `Cam.separateTabs` (`part_003` lines 531–588).  `contains` and
`intersect` stand for the external 2d-geometry library's
`Polygon.contains` and `Segment.intersect`.  The traversal starts from the
tool path's **last** vertex (`toolPath[toolPath.length - 1]`).  When that
start point lies inside a tab polygon, the source executes
`paths.unshift([ip0, ip0])` at line 546 — but `const paths = []` is only
declared at line 551, so the temporal dead zone makes this a JavaScript
`ReferenceError`; the model returns `Except.error`. -/
def separateTabs (contains : IPath → Pt → Bool)
    (intersect : Pt → Pt → IPath → List Pt)
    (toolPath : IPath) (tabGeometry : List IPath) : Except JsError (List IPath) :=
  let tabPolys := tabGeometry
  let ip0 := toolPath.getLastD origin
  if tabPolys.any fun tab => contains tab ip0 then
    Except.error JsError.referenceError
  else
    let st := toolPath.foldl (tabSegStep intersect tabPolys) ⟨ip0, [ip0], []⟩
    Except.ok (if st.currPath.length > 1 then st.paths ++ [st.currPath] else st.paths)

end Cam

/-- The claim C1 algorithm, written from the spec's words (§4.2 Pocket):
"while `current` is non-empty, prepend `current` to the accumulating list
(reversing each path first when climb); `current := offset(current,
−cutterDia·(1 − overlap))`". -/
def pocketPassesSpec (offset : IPaths → ℚ → IPaths) (stepDelta : ℚ)
    (climb : Bool) : ℕ → IPaths → List IPath → List IPath
  | 0, _, acc => acc
  | fuel + 1, current, acc =>
    if current = [] then acc
    else
      let pass := if climb then current.map List.reverse else current
      pocketPassesSpec offset stepDelta climb fuel (offset pass stepDelta)
        (pass ++ acc)

/-- The claim C1 pocket compiler, written from the spec's words: the initial
pass is `g₀ = offset(geometry, −cutterDia/2)`; iterate the shrinking loop;
finally `mergePaths(g₀, accumulated)`. -/
def pocketSpec (offset : IPaths → ℚ → IPaths)
    (ipMerge : Option IPaths → List IPath → List IPath)
    (crosses : Option IPaths → Pt → Pt → Bool) (fuel : ℕ)
    (geometry : IPaths) (cutterDia overlap : ℚ) (climb : Bool) : List CamPath :=
  let g0 := offset geometry (-cutterDia / 2)
  Cam.mergePaths ipMerge crosses (some g0)
    (pocketPassesSpec offset (-cutterDia * (1 - overlap)) climb fuel g0 [])

/-- The engrave pass for one input contour as the spec describes it
(§4.2 Engrave): the contour (reversed unless `climb`), with its first vertex
duplicated at the end. -/
def closedCopy (climb : Bool) (path : IPath) : IPath :=
  let copy := if !climb then path.reverse else path
  copy ++ [copy.headD origin]

/-- Axis-aligned bounding-box containment.  Used to instantiate the external
2d-geometry `Polygon.contains` at the concrete rectangular tab polygons
appearing in the theorems below, where it coincides with true polygon
containment. -/
def rectContains (poly : IPath) (p : Pt) : Bool :=
  match poly with
  | [] => false
  | q :: qs =>
    let lox := qs.foldl (fun a r => min a r.X) q.X
    let hix := qs.foldl (fun a r => max a r.X) q.X
    let loy := qs.foldl (fun a r => min a r.Y) q.Y
    let hiy := qs.foldl (fun a r => max a r.Y) q.Y
    decide (lox ≤ p.X) && decide (p.X ≤ hix)
      && decide (loy ≤ p.Y) && decide (p.Y ≤ hiy)

/-! ## The older emitter: `generateGcode` of `src/js/SelectionViewModel.js`
(second document in that file, the 2014–2025 `GcodeGenerationViewModel`).
It assembles the G-code line list directly.  Lines are modelled as a
structured type; each constructor corresponds to one `gcode.push` template of
the source.  The per-operation emission is delegated to the absent
`Gcode.js` `generate` function, taken here as an abstract parameter. -/

/-- Unit systems accepted by the generator (`gunits`); any other value
throws in the source, so the model restricts to these two. -/
inductive GUnit where
  | mm
  | inch
deriving DecidableEq, Repr

/-- One emitted G-code line of `SelectionViewModel.js` `generateGcode`,
one constructor per `gcode.push` site (lines 347–358, 368–375, 405–407);
`body` stands for lines produced by the absent `Gcode.generate`. -/
inductive GLine where
  /-- `; Work area:(w,h)units` -/
  | workArea (w h : ℚ)
  /-- `; Offset: (x,y)units` -/
  | offsetComment (x y : ℚ)
  /-- `G20 ; Set units to inches` -/
  | g20
  /-- `G21 ; Set units to mm` -/
  | g21
  /-- `G90 ; Absolute positioning` -/
  | g90
  /-- `G0 Z<z> F<f> ; Move to clearance level` -/
  | rapidSafeZ (z f : ℚ)
  /-- `; ** Operation **` -/
  | opMarker
  /-- `; Name: <s>` -/
  | opName (s : String)
  /-- `; Type: <t>` -/
  | opType (t : String)
  /-- `; Paths: <n>` -/
  | opPaths (n : ℕ)
  /-- `; Direction: <d>` -/
  | opDirection (d : String)
  /-- `; Cut Depth: <d>units` -/
  | opCutDepth (d : ℚ)
  /-- `; Pass Depth: <d>units` -/
  | opPassDepth (d : ℚ)
  /-- `; Plunge rate: <r>units/min` -/
  | opPlungeRate (r : ℚ)
  /-- a line emitted by `Gcode.generate` for an operation -/
  | body (l : String)
  /-- `G0 X0 Y0 F<f> ; Return to 0,0` -/
  | returnHome (f : ℚ)
  /-- `M2 ; end program` -/
  | m2
deriving DecidableEq, Repr

namespace SVM

/-- An entry of `App.models.Operations.operations()` as read by
`SelectionViewModel.js` `generateGcode` (operation kinds are strings in this
version of the code). -/
structure Op where
  name : String
  operation : String
  toolPaths : List CamPath
  ramp : Bool
  cutDepth : ℚ
  direction : String
  enabled : Bool

/-- The job-level control values read from the models at the top of
`generateGcode` (lines 304–313, 334–346); the origin offset `ox`, `oy` and
the bounding-box numbers are taken as inputs since they come from the DOM. -/
structure Job where
  gunits : GUnit
  safeZ : ℚ
  rapidRate : ℚ
  plungeRate : ℚ
  cutRate : ℚ
  passDepthRaw : ℚ
  topZ : ℚ
  tabZ : ℚ
  bbWidth : ℚ
  bbHeight : ℚ
  ox : ℚ
  oy : ℚ
  returnTo00 : Bool

/-- The argument record passed to `Gcode.generate` (lines 377–402). -/
structure GenArgs where
  paths : List CamPath
  ramp : Bool
  xScale : ℚ
  yScale : ℚ
  zScale : ℚ
  offsetX : ℚ
  offsetY : ℚ
  useZ : Bool
  tabGeometry : List IPath
  tabZ : ℚ
  decimal : ℕ
  topZ : ℚ
  botZ : ℚ
  safeZ : ℚ
  passDepth : ℚ
  plungeFeed : ℚ
  retractFeed : ℚ
  cutFeed : ℚ
  rapidFeed : ℚ

/-- Construction of the `Gcode.generate` arguments for one operation
(lines 377–402).  `uscale` stands for `UnitConverter.from.internal.to`;
`passDepth` and `cutDepth` are the already-clamped values. -/
def mkGenArgs (uscale : GUnit → ℚ) (job : Job) (tabGeometry : List IPath)
    (passDepth : ℚ) (op : Op) (cutDepth : ℚ) : GenArgs :=
  { paths := op.toolPaths
    ramp := op.ramp
    xScale := uscale job.gunits
    yScale := -uscale job.gunits
    zScale := 1
    offsetX := job.ox
    offsetY := job.oy
    useZ := op.operation == "V Carve" || op.operation == "Perforate"
    tabGeometry := tabGeometry
    tabZ := job.tabZ
    decimal := 2
    topZ := job.topZ
    botZ := job.topZ - cutDepth
    safeZ := job.safeZ
    passDepth := if op.operation == "Perforate" then cutDepth else passDepth
    plungeFeed := job.plungeRate
    retractFeed := job.rapidRate
    cutFeed := job.cutRate
    rapidFeed := job.rapidRate }

/-- The filter applied to the operations list (lines 290–296): enabled
operations with a non-null, non-empty tool-path list. -/
def wanted (op : Op) : Bool := op.enabled && !op.toolPaths.isEmpty

/-- The job preamble (lines 347–358): bounding-box and offset comments, the
unit directive, absolute positioning, and the rapid to clearance level. -/
def preamble (job : Job) : List GLine :=
  [.workArea job.bbWidth job.bbHeight,
   .offsetComment job.ox job.oy,
   (match job.gunits with | .inch => .g20 | .mm => .g21),
   .g90,
   .rapidSafeZ job.safeZ job.rapidRate]

/-- The lines pushed for one operation (lines 360–403): the cut-depth clamp,
the operation header comments, and the `Gcode.generate` output. -/
def opBlock (genOp : GenArgs → List GLine) (uscale : GUnit → ℚ) (job : Job)
    (tabGeometry : List IPath) (passDepth : ℚ) (op : Op) : List GLine :=
  let cutDepth := if op.cutDepth < 0 then 0 else op.cutDepth
  [GLine.opMarker, .opName op.name, .opType op.operation,
   .opPaths op.toolPaths.length, .opDirection op.direction,
   .opCutDepth cutDepth, .opPassDepth passDepth,
   .opPlungeRate job.plungeRate]
  ++ genOp (mkGenArgs uscale job tabGeometry passDepth op cutDepth)

/-- `generateGcode` of `SelectionViewModel.js` (lines 285–416).
Returns `none` for the early `return` at line 298 (the `gcode` observable is
left untouched); otherwise the assembled line list.  `genOp` stands for the
absent `Gcode.generate`; the tab geometry (built at lines 321–331 from the
absent `InternalPaths.offset`/`clip`) is an input.  The final two pushes
(lines 405–407) are modelled exactly as JavaScript executes them: the
`returnHome` push is governed by `if (returnTo00)`, while the `m2` push —
indented but outside any braces — is unconditional. -/
def generateGcode (genOp : GenArgs → List GLine) (uscale : GUnit → ℚ)
    (job : Job) (tabGeometry : List IPath) (allOps : List Op) :
    Option (List GLine) :=
  let ops := allOps.filter wanted
  if ops.isEmpty then none
  else
    let passDepth := if job.passDepthRaw < 0 then 0 else job.passDepthRaw
    let gcode := preamble job
      ++ ops.flatMap (opBlock genOp uscale job tabGeometry passDepth)
    let gcode :=
      if job.returnTo00 then gcode ++ [GLine.returnHome job.rapidRate] else gcode
    some (gcode ++ [GLine.m2])

end SVM

/-! ## The newer emitter front end: `generateGcode` of
`src/src/GcodeGenerationViewModel.js`.  It builds a job card and one
operation card per enabled operation, clamping negative depths with a
warning, and hands the cards to the absent `Gcode.Generator`. -/

namespace GGVM

/-- Operation kinds (`App.Ops`) as compared at lines 288–289. -/
inductive CutType where
  | pocket
  | inside
  | outside
  | engrave
  | perforate
  | drill
  | vcarve
deriving DecidableEq, Repr

/-- Host-facing warnings raised through `App.showAlert` during generation. -/
inductive Warning where
  | passDepthTooSmall
  | cutDepthTooSmall
deriving DecidableEq, Repr

/-- An entry of `App.models.Operations.operations()` as read by
`GcodeGenerationViewModel.js` `generateGcode`. -/
structure OpIn where
  name : String
  operation : CutType
  toolPaths : List CamPath
  ramp : Bool
  cutDepth : ℚ
  direction : String
  spindleSpeed : ℚ
  enabled : Bool
deriving DecidableEq, Repr

/-- The operation card handed to `Gcode.Generator.addOperation`
(lines 287–302). -/
structure OpCard where
  name : String
  cutType : CutType
  paths : List CamPath
  ramp : Bool
  cutDepth : ℚ
  direction : String
  spinSpeed : ℚ
  passDepth : ℚ
  precalculatedZ : Bool
deriving DecidableEq, Repr

/-- The `opCard` object literal of lines 290–302: Perforate and Drill are
single-pass (`passDepth` is the operation's own cut depth) and precalculate
their Z coordinates.  Note that `passDepth` is computed from the *raw*
`cutDepth`, before the clamp of lines 303–307. -/
def mkOpCard (op : OpIn) (jobPassDepth : ℚ) : OpCard :=
  let precalc := op.operation == CutType.perforate || op.operation == CutType.drill
  { name := op.name
    cutType := op.operation
    paths := op.toolPaths
    ramp := op.ramp
    cutDepth := op.cutDepth
    direction := op.direction
    spinSpeed := op.spindleSpeed
    passDepth := if precalc then op.cutDepth else jobPassDepth
    precalculatedZ := precalc }

/-- The per-operation clamp of lines 303–307: a negative `cutDepth` raises
`cutDepthTooSmall` and is replaced by 0. -/
def clampCutDepth (card : OpCard) : OpCard × List Warning :=
  if card.cutDepth < 0 then ({ card with cutDepth := 0 }, [.cutDepthTooSmall])
  else (card, [])

/-- The operation card as it reaches `job.addOperation`: built at lines
290–302 and then clamped at lines 303–307. -/
def opCard (op : OpIn) (jobPassDepth : ℚ) : OpCard :=
  (clampCutDepth (mkOpCard op jobPassDepth)).1

/-- The filter applied to the operations list (lines 216–222), identical to
the older version's. -/
def wanted (op : OpIn) : Bool := op.enabled && !op.toolPaths.isEmpty

/-- What `generateGcode` (lines 211–318) hands to the absent
`Gcode.Generator`: the clamped job pass depth, the warnings raised, and the
operation cards in order. -/
structure Result where
  passDepth : ℚ
  warnings : List Warning
  cards : List OpCard
deriving DecidableEq, Repr

/-- `generateGcode` of `GcodeGenerationViewModel.js` (lines 211–318),
up to the absent `Gcode.Generator`: `none` models the early `return` at
line 224 (nothing is emitted and the `gcode` observable keeps its previous
value); otherwise the job pass depth is clamped (lines 269–273, raising
`passDepthTooSmall`) and one clamped card is built per operation. -/
def generateGcode (allOps : List OpIn) (jobPassDepthRaw : ℚ) : Option Result :=
  let ops := allOps.filter wanted
  if ops.isEmpty then none
  else
    let pw : ℚ × List Warning :=
      if jobPassDepthRaw < 0 then (0, [.passDepthTooSmall])
      else (jobPassDepthRaw, [])
    let cardsW := ops.map fun op => clampCutDepth (mkOpCard op pw.1)
    some { passDepth := pw.1
           warnings := pw.2 ++ cardsW.flatMap (·.2)
           cards := cardsW.map (·.1) }

end GGVM

/-! ## Helper lemmas -/

/-- The source while-loop and the spec's loop wording coincide step by step. -/
theorem pocketLoop_eq_pocketPassesSpec (offset : IPaths → ℚ → IPaths)
    (stepDelta : ℚ) (climb : Bool) :
    ∀ (fuel : ℕ) (current : IPaths) (acc : List IPath),
      Cam.pocketLoop offset stepDelta climb fuel current acc
        = pocketPassesSpec offset stepDelta climb fuel current acc := by
  intro fuel
  induction fuel with
  | zero => intro current acc; rfl
  | succ n ih =>
    intro current acc
    simp only [Cam.pocketLoop, pocketPassesSpec]
    by_cases h : current = [] <;> simp [h, ih]

/-- The pocket while-loop does nothing on an empty polygon set. -/
theorem pocketLoop_nil (offset : IPaths → ℚ → IPaths) (stepDelta : ℚ)
    (climb : Bool) : ∀ (fuel : ℕ) (acc : List IPath),
    Cam.pocketLoop offset stepDelta climb fuel [] acc = acc := by
  intro fuel acc
  cases fuel <;> simp [Cam.pocketLoop]

/-- Once the iterated loop step reaches the empty set within `n` steps, any
fuel of at least `n` computes the same accumulated pass list. -/
theorem pocketLoop_stable (offset : IPaths → ℚ → IPaths) (stepDelta : ℚ)
    (climb : Bool) :
    ∀ (n : ℕ) (current : IPaths),
      (Cam.pocketStep offset stepDelta climb)^[n] current = [] →
      ∀ (acc : List IPath) (fuel : ℕ), n ≤ fuel →
        Cam.pocketLoop offset stepDelta climb fuel current acc
          = Cam.pocketLoop offset stepDelta climb n current acc := by
  intro n
  induction n with
  | zero =>
    intro current h acc fuel _
    simp only [Function.iterate_zero, id_eq] at h
    subst h
    simp [pocketLoop_nil, Cam.pocketLoop]
  | succ n ih =>
    intro current h acc fuel hf
    by_cases hc : current = []
    · subst hc
      simp [pocketLoop_nil]
    · obtain ⟨f, rfl⟩ : ∃ f, fuel = f + 1 := by
        cases fuel with
        | zero => omega
        | succ f => exact ⟨f, rfl⟩
      rw [Function.iterate_succ_apply] at h
      simp only [Cam.pocketLoop, if_neg hc]
      exact ih (Cam.pocketStep offset stepDelta climb current) h _ f (by omega)

/-! ## Claims C1 and C10: the pocket compiler -/

/-- C1: for every geometry, cutter diameter > 0, overlap in [0,1) and climb
flag, `Cam.pocket` computes its result by the spec's algorithm: initial pass
`offset(geometry, −cutterDia/2)`; repeatedly prepend the current set
(reversing each path first when climb) and shrink it by
`−cutterDia·(1 − overlap)`; finally `mergePaths` of the accumulated list
against the initial offset polygon.  The absent `InternalPaths` operations
are abstract; the two invariance hypotheses state (per the spec's geometric
reading of `mergePaths`/`crosses`) that the orientation of the clip
polygon's vertex lists is immaterial — needed because the source's in-place
reversal also reverses the aliased `clipPoly` copy when `climb` is set. -/
theorem pocket_follows_spec_algorithm
    (offset : IPaths → ℚ → IPaths)
    (ipMerge : Option IPaths → List IPath → List IPath)
    (crosses : Option IPaths → Pt → Pt → Bool) (fuel : ℕ)
    (geometry : IPaths) (cutterDia overlap : ℚ) (climb : Bool)
    (hdia : 0 < cutterDia) (hov0 : 0 ≤ overlap) (hov1 : overlap < 1)
    (hm : ∀ ps l, ipMerge (some (ps.map List.reverse)) l = ipMerge (some ps) l)
    (hc : ∀ ps a b, crosses (some (ps.map List.reverse)) a b = crosses (some ps) a b) :
    Cam.pocket offset ipMerge crosses fuel geometry cutterDia overlap climb
      = pocketSpec offset ipMerge crosses fuel geometry cutterDia overlap climb := by
  unfold Cam.pocket pocketSpec
  simp only [pocketLoop_eq_pocketPassesSpec]
  by_cases hcl : climb
  · by_cases hg : offset geometry (-cutterDia / 2) = []
    · simp [hg, hcl]
    · simp [hcl, hg, List.isEmpty_iff, Cam.mergePaths, hm, hc]
  · simp [hcl]

/-- Closed witness for `pocket_follows_spec_algorithm` at concrete inputs. -/
theorem pocket_follows_spec_algorithm_witness :
    Cam.pocket (fun _ _ => []) (fun _ l => l) (fun _ _ _ => false) 3
        [[origin]] 1 0 true
      = pocketSpec (fun _ _ => []) (fun _ l => l) (fun _ _ _ => false) 3
        [[origin]] 1 0 true :=
  pocket_follows_spec_algorithm (fun _ _ => []) (fun _ l => l)
    (fun _ _ _ => false) 3 [[origin]] 1 0 true one_pos le_rfl one_pos
    (fun _ _ => rfl) (fun _ _ _ => rfl)

/-- C10: the pocket shrinking loop terminates.  `InternalPaths.offset` is
absent from the sources; per the spec ("negative delta on an outer contour
shrinks it; if the contour collapses, it is dropped") each application of the
loop's step to a non-empty polygon set strictly decreases a natural measure
`μ` — under that hypothesis some finite iterate of the step is empty, and any
fuel of at least that many iterations computes the loop's stable result. -/
theorem pocket_loop_terminates
    (offset : IPaths → ℚ → IPaths) (stepDelta : ℚ) (climb : Bool)
    (μ : IPaths → ℕ)
    (hdec : ∀ ps, ps ≠ [] → μ (Cam.pocketStep offset stepDelta climb ps) < μ ps)
    (current : IPaths) :
    ∃ n : ℕ, (Cam.pocketStep offset stepDelta climb)^[n] current = []
      ∧ ∀ (acc : List IPath) (fuel : ℕ), n ≤ fuel →
          Cam.pocketLoop offset stepDelta climb fuel current acc
            = Cam.pocketLoop offset stepDelta climb n current acc := by
  have key : ∀ (k : ℕ) (ps : IPaths), μ ps ≤ k →
      ∃ n : ℕ, (Cam.pocketStep offset stepDelta climb)^[n] ps = [] := by
    intro k
    induction k with
    | zero =>
      intro ps hk
      by_cases h : ps = []
      · exact ⟨0, h⟩
      · exact absurd (hdec ps h) (by omega)
    | succ k ih =>
      intro ps hk
      by_cases h : ps = []
      · exact ⟨0, h⟩
      · obtain ⟨n, hn⟩ := ih (Cam.pocketStep offset stepDelta climb ps)
          (by have := hdec ps h; omega)
        exact ⟨n + 1, by rw [Function.iterate_succ_apply]; exact hn⟩
  obtain ⟨n, hn⟩ := key (μ current) current le_rfl
  exact ⟨n, hn, fun acc fuel hf =>
    pocketLoop_stable offset stepDelta climb n current hn acc fuel hf⟩

/-- Closed witness for `pocket_loop_terminates`: a concrete shrinking
offset (dropping one contour per application) with the length measure. -/
theorem pocket_loop_terminates_witness :
    ∃ n : ℕ, (Cam.pocketStep (fun ps _ => ps.drop 1) (-1) true)^[n] [[origin]] = []
      ∧ ∀ (acc : List IPath) (fuel : ℕ), n ≤ fuel →
          Cam.pocketLoop (fun ps _ => ps.drop 1) (-1) true fuel [[origin]] acc
            = Cam.pocketLoop (fun ps _ => ps.drop 1) (-1) true n [[origin]] acc :=
  pocket_loop_terminates (fun ps _ => ps.drop 1) (-1) true List.length
    (by
      intro ps h
      have hpos : 0 < ps.length := List.length_pos.mpr h
      simp [Cam.pocketStep]
      omega)
    [[origin]]

/-! ## Claims C2 and C3: the tab splitter -/

/-- C2: the claim says that when the starting vertex of the tool path lies
inside some tab polygon, a zero-length sub-path is prepended so that the
even/odd parity invariant holds.  The code indeed detects that case — but the
`paths.unshift([ip0, ip0])` it then executes reads `paths` before its
`const` declaration, so the function throws a `ReferenceError` instead of
returning any list.  Concretely: a path whose traversal start `(10,10)` lies
inside the tab square `(5,5)–(15,15)` makes `separateTabs` fail.  (The
intersection oracle is irrelevant here — execution never reaches it — and
`rectContains` agrees with true polygon containment on this rectangle.) -/
theorem separateTabs_crashes_when_start_inside_tab :
    Cam.separateTabs rectContains (fun _ _ _ => ([] : List Pt))
      [⟨6, 6⟩, ⟨10, 10⟩] [[⟨5, 5⟩, ⟨15, 5⟩, ⟨15, 15⟩, ⟨5, 15⟩]]
      = Except.error JsError.referenceError := by rfl

/-- C3: the claim says concatenating the tab splitter's outputs reconstructs
the tool path vertex-for-vertex, with intersections inserted once each.  The
code appends `ip1` once per tab polygon (the push sits inside the per-tab
loop): with no tab polygon the whole path is lost (output `[]`), and with two
disjoint tab polygons — squares at `(20,20)` and `(30,30)`, far from the
segment `(0,0)–(10,0)`, so containment and intersections are genuinely empty
— every traversed vertex is emitted twice. -/
theorem separateTabs_drops_and_duplicates_vertices :
    Cam.separateTabs rectContains (fun _ _ _ => ([] : List Pt))
        [⟨0, 0⟩, ⟨10, 0⟩] []
      = Except.ok []
    ∧ Cam.separateTabs rectContains (fun _ _ _ => ([] : List Pt))
        [⟨0, 0⟩, ⟨10, 0⟩]
        [[⟨20, 20⟩, ⟨22, 20⟩, ⟨22, 22⟩, ⟨20, 22⟩],
         [⟨30, 30⟩, ⟨32, 30⟩, ⟨32, 32⟩, ⟨30, 32⟩]]
      = Except.ok [[⟨10, 0⟩, ⟨0, 0⟩, ⟨0, 0⟩, ⟨10, 0⟩, ⟨10, 0⟩]] := ⟨by rfl, by rfl⟩

/-! ## Claims C5 and C6: the engrave compiler -/

/-- With the spec-modelled merge and a `null` clip polygon, `Cam.engrave` is
exactly one explicitly-closed copy per input contour, all marked safe. -/
theorem engrave_model_eq (crP crosses : Option IPaths → Pt → Pt → Bool)
    (d : ℚ) (geometry : IPaths) (climb : Bool) :
    Cam.engrave (ipMergePaths crP d) crosses geometry climb
      = geometry.map fun p => { path := closedCopy climb p, safeToClose := true } := by
  simp [Cam.engrave, Cam.mergePaths, ipMergePaths, closedCopy,
    Function.comp_def]

/-- The explicitly-closed engrave pass has one more vertex than its input. -/
theorem closedCopy_length (climb : Bool) (p : IPath) :
    (closedCopy climb p).length = p.length + 1 := by
  cases climb <;> simp [closedCopy]

/-- Appending a non-empty list's head to its end yields equal end vertices. -/
theorem append_headD_getLastD (c : List Pt) (hc : c ≠ []) :
    (c ++ [c.headD origin]).headD origin = (c ++ [c.headD origin]).getLastD origin := by
  obtain ⟨y, ys, rfl⟩ := List.exists_cons_of_ne_nil hc
  rw [List.getLastD_eq_getLast?, List.getLast?_concat]
  simp [List.headD_cons]

/-- Appending a list's head to its end keeps consecutive vertices distinct,
provided they were distinct and the list's two end vertices differed. -/
theorem append_headD_chain (c : List Pt) (hc : c ≠ [])
    (hch : List.Chain' (· ≠ ·) c)
    (hend : c.headD origin ≠ c.getLastD origin) :
    List.Chain' (· ≠ ·) (c ++ [c.headD origin]) := by
  obtain ⟨y, ys, rfl⟩ := List.exists_cons_of_ne_nil hc
  rw [List.chain'_append]
  refine ⟨hch, List.chain'_singleton _, ?_⟩
  intro x hx z hz
  simp only [List.headD_cons, List.head?_cons, Option.mem_def, Option.some.injEq] at hz
  rw [Option.mem_def] at hx
  have hx' : (y :: ys).getLastD origin = x := by
    rw [List.getLastD_eq_getLast?, hx]; rfl
  subst hz
  intro heq
  apply hend
  simp only [List.headD_cons]
  rw [hx', heq]

/-- Reversal preserves distinctness of consecutive vertices. -/
theorem chain_reverse_ne (p : List Pt) (hch : List.Chain' (· ≠ ·) p) :
    List.Chain' (· ≠ ·) p.reverse := by
  rw [List.chain'_reverse]
  exact hch.imp fun a b h => Ne.symm h

/-- Reversal swaps the default-valued head for the default-valued last. -/
theorem reverse_headD (p : List Pt) : p.reverse.headD origin = p.getLastD origin := by
  rw [List.headD_eq_head?, List.head?_reverse, List.getLastD_eq_getLast?]

/-- Reversal swaps the default-valued last for the default-valued head. -/
theorem reverse_getLastD (p : List Pt) : p.reverse.getLastD origin = p.headD origin := by
  rw [List.getLastD_eq_getLast?, List.getLast?_reverse, List.headD_eq_head?]

/-- The explicitly-closed engrave pass starts and ends at the same vertex. -/
theorem closedCopy_head_eq_last (climb : Bool) (p : IPath) (h : p ≠ []) :
    (closedCopy climb p).headD origin = (closedCopy climb p).getLastD origin := by
  have hc : (if !climb then p.reverse else p) ≠ [] := by
    cases climb <;> simp [h]
  unfold closedCopy
  exact append_headD_getLastD _ hc

/-- Consecutive vertices of the explicitly-closed engrave pass differ
provided consecutive input vertices differ and the input's endpoints do. -/
theorem closedCopy_chain (climb : Bool) (p : IPath) (h : p ≠ [])
    (hch : List.Chain' (· ≠ ·) p)
    (hend : p.headD origin ≠ p.getLastD origin) :
    List.Chain' (· ≠ ·) (closedCopy climb p) := by
  have hc : (if !climb then p.reverse else p) ≠ [] := by
    cases climb <;> simp [h]
  have hch' : List.Chain' (· ≠ ·) (if !climb then p.reverse else p) := by
    cases climb with
    | false => simpa using chain_reverse_ne p hch
    | true => simpa using hch
  have hend' : (if !climb then p.reverse else p).headD origin
      ≠ (if !climb then p.reverse else p).getLastD origin := by
    cases climb with
    | false => simpa [reverse_headD, reverse_getLastD] using hend.symm
    | true => simpa using hend
  unfold closedCopy
  exact append_headD_chain _ hc hch' hend'

/-- C6: for every input geometry and climb flag, `Cam.engrave` (with the
spec-modelled merge and a `null` clip) returns exactly one `CamPath` per
input contour; each output path is the contour (reversed unless `climb`) with
its first vertex duplicated at the end, so an n-vertex contour yields an
(n+1)-vertex path ending where it starts; the merge threshold derived from
the cutter diameter has no effect on the result; and every returned `CamPath`
has `safeToClose = true`. -/
theorem engrave_one_pass_per_contour
    (crP crosses : Option IPaths → Pt → Pt → Bool) (d d' : ℚ)
    (geometry : IPaths) (climb : Bool) (hne : ∀ p ∈ geometry, p ≠ []) :
    Cam.engrave (ipMergePaths crP d) crosses geometry climb
      = geometry.map (fun p => { path := closedCopy climb p, safeToClose := true })
    ∧ (Cam.engrave (ipMergePaths crP d) crosses geometry climb).length
        = geometry.length
    ∧ (∀ p ∈ geometry, (closedCopy climb p).length = p.length + 1
        ∧ (closedCopy climb p).headD origin = (closedCopy climb p).getLastD origin)
    ∧ (∀ cp ∈ Cam.engrave (ipMergePaths crP d) crosses geometry climb,
        cp.safeToClose = true)
    ∧ Cam.engrave (ipMergePaths crP d) crosses geometry climb
        = Cam.engrave (ipMergePaths crP d') crosses geometry climb := by
  refine ⟨engrave_model_eq crP crosses d geometry climb, ?_, ?_, ?_, ?_⟩
  · rw [engrave_model_eq]; simp
  · intro p hp
    exact ⟨closedCopy_length climb p, closedCopy_head_eq_last climb p (hne p hp)⟩
  · rw [engrave_model_eq]
    intro cp hcp
    rw [List.mem_map] at hcp
    obtain ⟨p, _, rfl⟩ := hcp
    rfl
  · rw [engrave_model_eq, engrave_model_eq]

/-- Closed witness for `engrave_one_pass_per_contour` on a two-vertex
contour with `climb = false`. -/
theorem engrave_one_pass_per_contour_witness :
    Cam.engrave (ipMergePaths (fun _ _ _ => false) 1) (fun _ _ _ => false)
        [[⟨0, 0⟩, ⟨1, 0⟩]] false
      = ([[⟨0, 0⟩, ⟨1, 0⟩]] : IPaths).map
          (fun p => { path := closedCopy false p, safeToClose := true })
    ∧ (Cam.engrave (ipMergePaths (fun _ _ _ => false) 1) (fun _ _ _ => false)
        [[⟨0, 0⟩, ⟨1, 0⟩]] false).length = ([[⟨0, 0⟩, ⟨1, 0⟩]] : IPaths).length
    ∧ (∀ p ∈ ([[⟨0, 0⟩, ⟨1, 0⟩]] : IPaths),
        (closedCopy false p).length = p.length + 1
        ∧ (closedCopy false p).headD origin = (closedCopy false p).getLastD origin)
    ∧ (∀ cp ∈ Cam.engrave (ipMergePaths (fun _ _ _ => false) 1)
          (fun _ _ _ => false) [[⟨0, 0⟩, ⟨1, 0⟩]] false, cp.safeToClose = true)
    ∧ Cam.engrave (ipMergePaths (fun _ _ _ => false) 1) (fun _ _ _ => false)
        [[⟨0, 0⟩, ⟨1, 0⟩]] false
      = Cam.engrave (ipMergePaths (fun _ _ _ => false) 2) (fun _ _ _ => false)
        [[⟨0, 0⟩, ⟨1, 0⟩]] false :=
  engrave_one_pass_per_contour (fun _ _ _ => false) (fun _ _ _ => false) 1 2
    [[⟨0, 0⟩, ⟨1, 0⟩]] false (by decide)

/-- C5 counterexample: the claim "first vertex ≠ last vertex for every
CamPath returned by any compiler" fails at the engrave compiler on the
concrete triangle `(0,0) (4,0) (0,3)` with `climb = true`: engrave closes its
output explicitly, so the returned path starts and ends at `(0,0)`. -/
theorem engrave_first_eq_last_cex :
    ¬ ∀ cp ∈ Cam.engrave (ipMergePaths (fun _ _ _ => false) 0)
        (fun _ _ _ => false) [[⟨0, 0⟩, ⟨4, 0⟩, ⟨0, 3⟩]] true,
      cp.path.headD origin ≠ cp.path.getLastD origin := by decide

/-- C5 amended: every `CamPath` returned by the engrave compiler is the
(reversed unless climb) input contour explicitly closed, so its first vertex
EQUALS its last vertex; its consecutive vertices differ whenever consecutive
vertices of the input contour differ and the contour's first and last
vertices differ.  (For pocket and outline the invariant depends on the
absent `InternalPaths` implementation; for perforate/drill the spec itself
prescribes zero-length `[p, p]` paths.) -/
theorem engrave_campath_closed_invariant
    (crP crosses : Option IPaths → Pt → Pt → Bool) (d : ℚ)
    (geometry : IPaths) (climb : Bool) (hne : ∀ p ∈ geometry, p ≠ []) :
    ∀ cp ∈ Cam.engrave (ipMergePaths crP d) crosses geometry climb,
      ∃ p ∈ geometry, cp.path = closedCopy climb p
        ∧ cp.path.headD origin = cp.path.getLastD origin
        ∧ (List.Chain' (· ≠ ·) p → p.headD origin ≠ p.getLastD origin →
            List.Chain' (· ≠ ·) cp.path) := by
  rw [engrave_model_eq]
  intro cp hcp
  rw [List.mem_map] at hcp
  obtain ⟨p, hp, rfl⟩ := hcp
  exact ⟨p, hp, rfl, closedCopy_head_eq_last climb p (hne p hp),
    fun hch hend => closedCopy_chain climb p (hne p hp) hch hend⟩

/-- Closed witness for `engrave_campath_closed_invariant` at a concrete
two-vertex contour and its engrave output. -/
theorem engrave_campath_closed_invariant_witness :
    ∃ p ∈ ([[⟨0, 0⟩, ⟨1, 0⟩]] : IPaths),
      (CamPath.mk [⟨1, 0⟩, ⟨0, 0⟩, ⟨1, 0⟩] true).path = closedCopy false p
      ∧ (CamPath.mk [⟨1, 0⟩, ⟨0, 0⟩, ⟨1, 0⟩] true).path.headD origin
          = (CamPath.mk [⟨1, 0⟩, ⟨0, 0⟩, ⟨1, 0⟩] true).path.getLastD origin
      ∧ (List.Chain' (· ≠ ·) p → p.headD origin ≠ p.getLastD origin →
          List.Chain' (· ≠ ·) (CamPath.mk [⟨1, 0⟩, ⟨0, 0⟩, ⟨1, 0⟩] true).path) :=
  engrave_campath_closed_invariant (fun _ _ _ => false) (fun _ _ _ => false) 1
    [[⟨0, 0⟩, ⟨1, 0⟩]] false (by decide)
    (CamPath.mk [⟨1, 0⟩, ⟨0, 0⟩, ⟨1, 0⟩] true) (by decide)


/-! ## Claims C4 and C8: the emitter of `SelectionViewModel.js` -/

/-- A list whose `getLast?` is `some a` contains `a`. -/
theorem mem_of_some_getLast {α : Type} (l : List α) (a : α)
    (h : l.getLast? = some a) : a ∈ l := by
  have h' : a ∈ l.getLast? := h
  obtain ⟨hne, rfl⟩ := List.mem_getLast?_eq_getLast h'
  exact List.getLast_mem hne

/-- Shape of the postamble built at source lines 405–407: `M2` is always the
final line, and the return-home rapid is the penultimate line exactly when
`returnTo00` is set — provided the preceding lines contain no return-home
rapid of their own. -/
theorem postamble_shape (X : List GLine) (b : Bool) (r : ℚ)
    (hX : ∀ f, GLine.returnHome f ∉ X) :
    ((if b then X ++ [GLine.returnHome r] else X) ++ [GLine.m2]).getLast?
        = some GLine.m2
    ∧ (((if b then X ++ [GLine.returnHome r] else X) ++ [GLine.m2]).dropLast.getLast?
        = some (GLine.returnHome r) ↔ b = true)
    ∧ (b = false → ∀ f,
        GLine.returnHome f ∉ (if b then X ++ [GLine.returnHome r] else X) ++ [GLine.m2]) := by
  refine ⟨List.getLast?_concat _, ?_, ?_⟩
  · rw [List.dropLast_concat]
    cases b with
    | true => simp [List.getLast?_concat]
    | false =>
      simp only [if_neg Bool.false_ne_true, Bool.false_eq_true, iff_false]
      intro h
      exact hX r (mem_of_some_getLast _ _ h)
  · intro hb f
    subst hb
    simp only [Bool.false_eq_true, if_neg, if_false, List.mem_append,
      List.mem_singleton, not_or]
    exact ⟨hX f, by simp⟩

/-- No line of the preamble or of any operation block is the return-home
rapid, as long as the abstract `Gcode.generate` never emits one. -/
theorem no_returnHome_in_body (genOp : SVM.GenArgs → List GLine)
    (uscale : GUnit → ℚ) (job : SVM.Job) (tabGeometry : List IPath)
    (passDepth : ℚ) (ops : List SVM.Op)
    (hbody : ∀ a f, GLine.returnHome f ∉ genOp a) :
    ∀ f, GLine.returnHome f ∉
      SVM.preamble job
        ++ ops.flatMap (SVM.opBlock genOp uscale job tabGeometry passDepth) := by
  intro f hmem
  rw [List.mem_append] at hmem
  rcases hmem with h | h
  · cases hu : job.gunits <;> simp [SVM.preamble, hu] at h
  · rw [List.mem_flatMap] at h
    obtain ⟨op, _, h⟩ := h
    rw [SVM.opBlock, List.mem_append] at h
    rcases h with h | h
    · simp at h
    · exact hbody _ f h

/-- C4: for every job whose enabled-operations list is non-empty, the emitted
G-code line sequence always ends with `M2`; the line immediately before `M2`
is the `G0 X0 Y0 F<rapidFeed>` return rapid if and only if `returnTo00` is
set; and when `returnTo00` is false no return rapid appears anywhere in the
output.  (`hbody` records that the per-operation emitter `Gcode.generate`,
absent from the sources, does not itself emit the return-home rapid.) -/
theorem gcode_ends_with_m2
    (genOp : SVM.GenArgs → List GLine) (uscale : GUnit → ℚ) (job : SVM.Job)
    (tabGeometry : List IPath) (allOps : List SVM.Op)
    (hne : (allOps.filter SVM.wanted).isEmpty = false)
    (hbody : ∀ a f, GLine.returnHome f ∉ genOp a) :
    ∃ g, SVM.generateGcode genOp uscale job tabGeometry allOps = some g
      ∧ g.getLast? = some GLine.m2
      ∧ (g.dropLast.getLast? = some (GLine.returnHome job.rapidRate)
          ↔ job.returnTo00 = true)
      ∧ (job.returnTo00 = false → ∀ f, GLine.returnHome f ∉ g) := by
  unfold SVM.generateGcode
  simp only [hne, Bool.false_eq_true, if_false]
  exact ⟨_, rfl,
    postamble_shape _ job.returnTo00 job.rapidRate
      (no_returnHome_in_body genOp uscale job tabGeometry _ _ hbody)⟩

/-- Closed witness for `gcode_ends_with_m2` at a concrete one-operation job
with `returnTo00 = true`. -/
theorem gcode_ends_with_m2_witness :
    ∃ g, SVM.generateGcode (fun _ => []) (fun _ => 1)
        ⟨.mm, 10, 100, 20, 30, 1, 0, -1, 50, 50, 0, 0, true⟩ []
        [⟨"op1", "Pocket", [⟨[origin], true⟩], false, 1, "Conventional", true⟩]
      = some g
      ∧ g.getLast? = some GLine.m2
      ∧ (g.dropLast.getLast? = some (GLine.returnHome (100 : ℚ)) ↔ true = true)
      ∧ ((true : Bool) = false → ∀ f, GLine.returnHome f ∉ g) :=
  gcode_ends_with_m2 (fun _ => []) (fun _ => 1)
    ⟨.mm, 10, 100, 20, 30, 1, 0, -1, 50, 50, 0, 0, true⟩ []
    [⟨"op1", "Pocket", [⟨[origin], true⟩], false, 1, "Conventional", true⟩]
    rfl (by intro a f; simp)

/-- C8 counterexample: a job whose only operation is disabled — so the
filtered list of enabled operations with non-empty tool paths is empty —
produces NO output at all (`none` models the early `return` at line 298):
no preamble or postamble lines are emitted and the `gcode` observable keeps
whatever it previously held, contrary to the claim that preamble and
postamble are still emitted. -/
theorem generateGcode_empty_ops_cex :
    SVM.generateGcode (fun _ => []) (fun _ => 1)
      ⟨.mm, 10, 100, 20, 30, 1, 0, -1, 50, 50, 0, 0, false⟩ []
      [⟨"op1", "Pocket", [⟨[origin], true⟩], false, 1, "Conventional", false⟩]
      = none := rfl

/-- C8 amended: for every job whose list of enabled operations with
non-empty tool paths is empty, `generateGcode` returns early without
emitting anything — no preamble, no postamble; the G-code output is left
unchanged. -/
theorem generateGcode_empty_ops_returns_early
    (genOp : SVM.GenArgs → List GLine) (uscale : GUnit → ℚ) (job : SVM.Job)
    (tabGeometry : List IPath) (allOps : List SVM.Op)
    (h : allOps.filter SVM.wanted = []) :
    SVM.generateGcode genOp uscale job tabGeometry allOps = none := by
  unfold SVM.generateGcode
  simp [h]

/-- Closed witness for `generateGcode_empty_ops_returns_early` on the empty
operation list. -/
theorem generateGcode_empty_ops_returns_early_witness :
    SVM.generateGcode (fun _ => []) (fun _ => 1)
      ⟨.mm, 10, 100, 20, 30, 1, 0, -1, 50, 50, 0, 0, true⟩ [] [] = none :=
  generateGcode_empty_ops_returns_early (fun _ => []) (fun _ => 1)
    ⟨.mm, 10, 100, 20, 30, 1, 0, -1, 50, 50, 0, 0, true⟩ [] [] rfl

/-! ## Claims C7 and C9: the card builder of `GcodeGenerationViewModel.js` -/

/-- C7: for every operation whose kind is Perforate or Drill the operation
card sets `precalculatedZ` and uses the operation's own `cutDepth` as its
pass depth (single full-depth plunge, bypassing pass-depth layering); for
every other kind the job's pass depth is used and `precalculatedZ` is
false. -/
theorem opCard_precalculatedZ (op : GGVM.OpIn) (jobPassDepth : ℚ) :
    ((op.operation = .perforate ∨ op.operation = .drill) →
        (GGVM.opCard op jobPassDepth).precalculatedZ = true
        ∧ (GGVM.opCard op jobPassDepth).passDepth = op.cutDepth)
    ∧ ((op.operation ≠ .perforate ∧ op.operation ≠ .drill) →
        (GGVM.opCard op jobPassDepth).precalculatedZ = false
        ∧ (GGVM.opCard op jobPassDepth).passDepth = jobPassDepth) := by
  unfold GGVM.opCard GGVM.clampCutDepth GGVM.mkOpCard
  constructor
  · intro h
    rcases h with h | h <;> rw [h] <;> split <;> simp
  · intro ⟨h1, h2⟩
    have hb1 : (op.operation == GGVM.CutType.perforate) = false := by
      simpa using h1
    have hb2 : (op.operation == GGVM.CutType.drill) = false := by
      simpa using h2
    rw [hb1, hb2]
    split <;> simp

/-- Closed witness for `opCard_precalculatedZ`: a Perforate operation and a
Pocket operation at concrete depths. -/
theorem opCard_precalculatedZ_witness :
    ((GGVM.opCard ⟨"p", .perforate, [], false, 5, "d", 0, true⟩ 3).precalculatedZ = true
      ∧ (GGVM.opCard ⟨"p", .perforate, [], false, 5, "d", 0, true⟩ 3).passDepth = 5)
    ∧ ((GGVM.opCard ⟨"q", .pocket, [], false, 5, "d", 0, true⟩ 3).precalculatedZ = false
      ∧ (GGVM.opCard ⟨"q", .pocket, [], false, 5, "d", 0, true⟩ 3).passDepth = 3) :=
  ⟨(opCard_precalculatedZ ⟨"p", .perforate, [], false, 5, "d", 0, true⟩ 3).1
      (Or.inl rfl),
   (opCard_precalculatedZ ⟨"q", .pocket, [], false, 5, "d", 0, true⟩ 3).2
      ⟨by decide, by decide⟩⟩

/-- C9: for every job with a negative pass depth and every enabled operation
with a negative cut depth, G-code generation does not fail: the negative pass
depth is clamped to 0 with a `passDepthTooSmall` warning, the operation's
negative cut depth is clamped to 0 with a `cutDepthTooSmall` warning, and
generation continues, building the operation's card from the clamped
values. -/
theorem generation_clamps_and_continues
    (allOps : List GGVM.OpIn) (jobPassDepthRaw : ℚ) (op : GGVM.OpIn)
    (hpd : jobPassDepthRaw < 0)
    (hmem : op ∈ allOps.filter GGVM.wanted)
    (hcd : op.cutDepth < 0) :
    ∃ r : GGVM.Result, GGVM.generateGcode allOps jobPassDepthRaw = some r
      ∧ r.passDepth = 0
      ∧ GGVM.Warning.passDepthTooSmall ∈ r.warnings
      ∧ GGVM.Warning.cutDepthTooSmall ∈ r.warnings
      ∧ GGVM.opCard op 0 ∈ r.cards
      ∧ (GGVM.opCard op 0).cutDepth = 0 := by
  have hne : (allOps.filter GGVM.wanted).isEmpty = false := by
    rcases hq : allOps.filter GGVM.wanted with _ | ⟨a, l⟩
    · rw [hq] at hmem; simp at hmem
    · rfl
  have hcd0 : (GGVM.mkOpCard op 0).cutDepth = op.cutDepth := rfl
  unfold GGVM.generateGcode
  simp only [hne, Bool.false_eq_true, if_false, if_pos hpd]
  refine ⟨_, rfl, rfl, ?_, ?_, ?_, ?_⟩
  · simp
  · refine List.mem_append.mpr (Or.inr (List.mem_flatMap.mpr
      ⟨GGVM.clampCutDepth (GGVM.mkOpCard op 0), List.mem_map_of_mem _ hmem, ?_⟩))
    simp [GGVM.clampCutDepth, hcd0, hcd]
  · exact List.mem_map.mpr
      ⟨GGVM.clampCutDepth (GGVM.mkOpCard op 0), List.mem_map_of_mem _ hmem, rfl⟩
  · simp [GGVM.opCard, GGVM.clampCutDepth, hcd0, hcd]

/-- Closed witness for `generation_clamps_and_continues` at a concrete job
with `passDepth = −1` and one enabled Pocket operation with `cutDepth = −2`. -/
theorem generation_clamps_and_continues_witness :
    ∃ r : GGVM.Result,
      GGVM.generateGcode
          [⟨"a", .pocket, [⟨[origin], true⟩], false, -2, "d", 0, true⟩] (-1)
        = some r
      ∧ r.passDepth = 0
      ∧ GGVM.Warning.passDepthTooSmall ∈ r.warnings
      ∧ GGVM.Warning.cutDepthTooSmall ∈ r.warnings
      ∧ GGVM.opCard ⟨"a", .pocket, [⟨[origin], true⟩], false, -2, "d", 0, true⟩ 0
          ∈ r.cards
      ∧ (GGVM.opCard ⟨"a", .pocket, [⟨[origin], true⟩], false, -2, "d", 0, true⟩ 0).cutDepth
          = 0 :=
  generation_clamps_and_continues
    [⟨"a", .pocket, [⟨[origin], true⟩], false, -2, "d", 0, true⟩] (-1)
    ⟨"a", .pocket, [⟨[origin], true⟩], false, -2, "d", 0, true⟩
    (by norm_num) (by decide) (by norm_num)
